import Mathlib

/-!
# Verification of the weapply-pm decision engine

Shallow embedding of the three core modules of the repository:

* `src/src/urgencyDetector.ts` — urgency scoring (`analyzeUrgency`);
* the thread tracker of `src/src/contentRefiner.ts` (`recordTicket`,
  `findRelatedTickets`, `cleanupCache` and the two in-memory maps);
* `src/src/emailRouting.ts` — metadata extraction (`extractEmailMetadata`,
  `extractDomain`).

JavaScript strings are modelled as `List Char`; `String.prototype.toLowerCase`
and `trim` are modelled on the ASCII range (all patterns and all inputs used in
the development are ASCII).  JavaScript `Map`s are modelled as association
lists in insertion order (`Map.set` on an existing key updates in place,
otherwise appends; iteration follows insertion order).  `Date.now()` /
`new Date()` timestamps are passed explicitly as an `Int` of milliseconds.
Regular expressions are modelled by a small list-of-successes matching monad
whose alternatives are ordered exactly like the backtracking priorities of the
JavaScript regex engine (greedy quantifier = longest first, lazy = shortest
first, alternation = left to right, leftmost match wins).
-/

/-- ASCII model of `String.prototype.toLowerCase`. -/
def latinLower (c : Char) : Char :=
  if 65 ≤ c.toNat && c.toNat ≤ 90 then Char.ofNat (c.toNat + 32) else c

/-- ASCII model of the JavaScript `\s` class (space, tab, LF, VT, FF, CR). -/
def isWs (c : Char) : Bool :=
  c == ' ' || c == '\t' || c == '\n' || c == '\r' || c == '\x0b' || c == '\x0c'

/-- `startsWithCh pat l`: `l` begins with `pat` (character-exact). -/
def startsWithCh : List Char → List Char → Bool
  | [], _ => true
  | _ :: _, [] => false
  | a :: as, b :: bs => a == b && startsWithCh as bs

/-- `hasSub pat l`: `pat` occurs as a contiguous substring of `l`
(JavaScript `String.prototype.includes`). -/
def hasSub (pat : List Char) : List Char → Bool
  | [] => startsWithCh pat []
  | c :: t => startsWithCh pat (c :: t) || hasSub pat t

/-- Substring test on `String`s. -/
def hasSubStr (pat s : String) : Bool := hasSub pat.data s.data

/-- Lower-cased copy of a string (ASCII). -/
def lowerStr (s : String) : String := ⟨s.data.map latinLower⟩

/-- Strip leading and trailing whitespace (model of `String.prototype.trim`). -/
def trimWs (l : List Char) : List Char :=
  ((l.dropWhile isWs).reverse.dropWhile isWs).reverse

/-! ## Urgency detector (`src/src/urgencyDetector.ts`) -/

/-- `URGENCY_KEYWORDS` of `urgencyDetector.ts`, in source (insertion) order. -/
def URGENCY_KEYWORDS : List (String × Int) :=
  [("urgent", 30), ("emergency", 30), ("critical", 30), ("asap", 30),
   ("immediately", 30), ("right now", 30), ("right away", 30),
   ("important", 20), ("priority", 20), ("deadline", 20),
   ("time-sensitive", 20), ("time sensitive", 20), ("as soon as possible", 20),
   ("blocking", 20), ("blocked", 20), ("broken", 20), ("down", 20),
   ("outage", 20), ("not working", 20), ("doesn\x27t work", 20),
   ("can\x27t access", 20), ("cannot access", 20),
   ("please help", 15), ("need help", 15), ("help needed", 15), ("stuck", 15),
   ("failing", 15), ("failed", 15), ("error", 15), ("crash", 15),
   ("crashing", 15),
   ("soon", 10), ("quickly", 10), ("fast", 10), ("waiting", 10),
   ("overdue", 10), ("late", 10), ("delayed", 10),
   ("when you have time", -10), ("no rush", -10), ("not urgent", -10),
   ("low priority", -10), ("whenever", -10), ("at your convenience", -10),
   ("nice to have", -10), ("future", -10)]

/-- `IMPACT_KEYWORDS` of `urgencyDetector.ts`, in source order. -/
def IMPACT_KEYWORDS : List (String × Int) :=
  [("customers affected", 25), ("customer impact", 25), ("revenue", 25),
   ("money", 20), ("losing", 20), ("lost", 15), ("sales", 15),
   ("production", 20), ("live", 15), ("public", 15),
   ("security", 25), ("breach", 30), ("hack", 30), ("vulnerability", 25),
   ("exploit", 25), ("leak", 20), ("exposed", 20),
   ("sla", 20), ("contract", 15), ("agreement", 10), ("deadline", 15),
   ("due date", 15), ("due today", 25), ("due tomorrow", 20), ("expires", 20)]

/-- Number of matches of `/!{2,}/g`: maximal runs of at least two `!`.
The `Nat` argument is structural-recursion fuel; every step consumes at least
one character, so passing the length of the list makes it inexhaustible. -/
def countBangRunsF : Nat → List Char → Nat
  | 0, _ => 0
  | _ + 1, [] => 0
  | fuel + 1, c :: t =>
    if c == '!' then
      let run := (c :: t).takeWhile (fun x => x == '!')
      if 2 ≤ run.length then 1 + countBangRunsF fuel (t.drop (run.length - 1))
      else countBangRunsF fuel t
    else countBangRunsF fuel t

/-- Number of matches of `/!{2,}/g` on a list. -/
def countBangRuns (l : List Char) : Nat := countBangRunsF l.length l

/-- Number of non-overlapping occurrences of a literal pattern, scanning left
to right (a literal regex with the `g` flag), with structural fuel. -/
def countLitF (pat : List Char) : Nat → List Char → Nat
  | 0, _ => 0
  | _ + 1, [] => 0
  | fuel + 1, c :: t =>
    if startsWithCh pat (c :: t) then
      1 + countLitF pat fuel (t.drop (pat.length - 1))
    else countLitF pat fuel t

/-- Non-overlapping occurrence count of a literal global regex. -/
def countLit (pat l : List Char) : Nat := countLitF pat l.length l

/-- `A`–`Z` test (the JavaScript class `[A-Z]`). -/
def isUpperAZ (c : Char) : Bool := 65 ≤ c.toNat && c.toNat ≤ 90

/-- Number of matches of `/[A-Z]{5,}/g`: maximal runs of uppercase letters of
length at least 5 (the greedy quantifier consumes each whole run), with
structural fuel. -/
def countCapsRunsF : Nat → List Char → Nat
  | 0, _ => 0
  | _ + 1, [] => 0
  | fuel + 1, c :: t =>
    if isUpperAZ c then
      let run := (c :: t).takeWhile isUpperAZ
      (if 5 ≤ run.length then 1 else 0) + countCapsRunsF fuel (t.drop (run.length - 1))
    else countCapsRunsF fuel t

/-- Match count of `/[A-Z]{5,}/g` on a list. -/
def countCapsRuns (l : List Char) : Nat := countCapsRunsF l.length l

/-- Rest of the list after the first occurrence of `pat`, if any. -/
def restAfterFirst (pat : List Char) : List Char → Option (List Char)
  | [] => if startsWithCh pat [] then some [] else none
  | c :: t =>
    if startsWithCh pat (c :: t) then some ((c :: t).drop pat.length)
    else restAfterFirst pat t

/-- Split on `'\n'` (for the line-local `.` of a JavaScript regex). -/
def splitLines : List Char → List (List Char)
  | [] => [[]]
  | c :: t =>
    if c == '\n' then [] :: splitLines t
    else
      match splitLines t with
      | [] => [[c]]
      | l :: ls => (c :: l) :: ls

/-- Test of `/please.*help/i` on lower-cased text.  Since `.` does not match a
newline, the whole match lies within one line; and if any occurrence of
`please` on a line is followed by `help`, so is the first one. -/
def pleaseHelpTest (lowered : List Char) : Bool :=
  (splitLines lowered).any fun line =>
    match restAfterFirst "please".data line with
    | some rest => hasSub "help".data rest
    | none => false

/-- `1` when the (non-global) pattern matches, else `0`: a non-global
`String.match` returns an array of length 1 on success. -/
def count01 (b : Bool) : Nat := if b then 1 else 0

/-- `PANIC_PATTERNS` of `urgencyDetector.ts`: match-count function (on the
original-case text), weight, reason name — in source order. -/
def PANIC_PATTERNS : List ((List Char → Nat) × Int × String) :=
  [(countBangRuns, 10, "Multiple exclamation marks"),
   (countLit "HELP".data, 15, "HELP in caps"),
   (countLit "URGENT".data, 20, "URGENT in caps"),
   (countLit "ASAP".data, 20, "ASAP in caps"),
   (countLit "CRITICAL".data, 20, "CRITICAL in caps"),
   (countLit "EMERGENCY".data, 25, "EMERGENCY in caps"),
   (countCapsRuns, 5, "Extended caps text"),
   (fun l => count01 (pleaseHelpTest (l.map latinLower)), 10, "Please help pattern"),
   (fun l => count01 (hasSub "call me".data (l.map latinLower)), 15, "Request for call"),
   (fun l => count01 (hasSub "phone".data (l.map latinLower)), 10, "Phone mentioned")]

/-- Test of `/\d+ suffix/`: some digit immediately followed by the suffix. -/
def digitThen (suf : List Char) : List Char → Bool
  | [] => false
  | c :: t => (c.isDigit && startsWithCh suf t) || digitThen suf t

/-- `TIME_PATTERNS` of `urgencyDetector.ts`: test (on the lower-cased full
text — all these patterns carry `/i`), weight, reason name, in source order. -/
def TIME_PATTERNS : List ((List Char → Bool) × Int × String) :=
  [(hasSub "today".data, 15, "Today mentioned"),
   (hasSub "tonight".data, 15, "Tonight mentioned"),
   (hasSub "this morning".data, 15, "This morning"),
   (hasSub "this afternoon".data, 15, "This afternoon"),
   (hasSub "right now".data, 20, "Right now"),
   (hasSub "immediately".data, 20, "Immediately"),
   (digitThen " minutes".data, 15, "Minutes mentioned"),
   (digitThen " hours".data, 10, "Hours mentioned"),
   (hasSub "end of day".data, 15, "End of day"),
   (hasSub "eod".data, 15, "EOD")]

/-- Accumulator of the scoring loops of `analyzeUrgency`. -/
structure ScanAcc where
  score : Int
  reasons : List String
  keywords : List String
deriving Repr, DecidableEq

/-- The four scoring loops of `analyzeUrgency` plus the compound-urgency
bonus, producing the raw (pre-clamp) score together with the reason and
keyword lists, exactly in the source's accumulation order. -/
def urgencyScan (content subject : String) : ScanAcc :=
  let fullText := (subject.data ++ '\n' :: content.data).map latinLower
  let originalText := subject.data ++ '\n' :: content.data
  let acc1 := URGENCY_KEYWORDS.foldl (fun acc kw =>
    if hasSub (kw.1.data.map latinLower) fullText then
      { score := acc.score + kw.2,
        reasons := if 20 ≤ kw.2 then
            acc.reasons ++ ["Contains \"" ++ kw.1 ++ "\""] else acc.reasons,
        keywords := acc.keywords ++ [kw.1] }
    else acc) (⟨0, [], []⟩ : ScanAcc)
  let acc2 := IMPACT_KEYWORDS.foldl (fun acc kw =>
    if hasSub (kw.1.data.map latinLower) fullText then
      { score := acc.score + kw.2,
        reasons := if 20 ≤ kw.2 then
            acc.reasons ++ ["Business impact: \"" ++ kw.1 ++ "\""] else acc.reasons,
        keywords := acc.keywords ++ [kw.1] }
    else acc) acc1
  let acc3 := PANIC_PATTERNS.foldl (fun acc pp =>
    let n := pp.1 originalText
    if 0 < n then
      { score := acc.score + pp.2.1 * Int.ofNat (min n 3),
        reasons := acc.reasons ++ [pp.2.2], keywords := acc.keywords }
    else acc) acc2
  let acc4 := TIME_PATTERNS.foldl (fun acc tp =>
    if tp.1 fullText then
      { score := acc.score + tp.2.1,
        reasons := acc.reasons ++ [tp.2.2], keywords := acc.keywords }
    else acc) acc3
  if 3 ≤ acc4.keywords.length then
    { score := acc4.score + 15,
      reasons := acc4.reasons ++ ["Multiple urgency indicators"],
      keywords := acc4.keywords }
  else acc4

/-- Result record of `analyzeUrgency` (`UrgencyAnalysis` in `types.ts`). -/
structure UrgencyAnalysis where
  score : Int
  suggestedPriority : Nat
  reasons : List String
  keywords : List String
deriving Repr, DecidableEq

/-- The score-to-priority mapping of `analyzeUrgency` (lines 193–205),
including the conditional `unshift` of a default reason in the Urgent
branch.  The argument is the already-clamped score. -/
def mapPriorityPair (score : Int) (reasons : List String) : Nat × List String :=
  if 60 ≤ score then
    (1, if reasons.any (fun r => hasSubStr "Urgent" r) then reasons
        else "High urgency score detected" :: reasons)
  else if 35 ≤ score then (2, reasons)
  else if 15 ≤ score then (3, reasons)
  else ((if score < 0 then 4 else 3), reasons)

/-- `analyzeUrgency` of `urgencyDetector.ts`: scan, clamp to `[0, 100]`,
map to a priority, truncate reasons to 5 and keywords to 10. -/
def analyzeUrgency (content subject : String) : UrgencyAnalysis :=
  let acc := urgencyScan content subject
  let score := min 100 (max 0 acc.score)
  let pr := mapPriorityPair score acc.reasons
  { score := score, suggestedPriority := pr.1,
    reasons := pr.2.take 5, keywords := acc.keywords.take 10 }

theorem analyzeUrgency_score_eq (content subject : String) :
    (analyzeUrgency content subject).score
      = min 100 (max 0 (urgencyScan content subject).score) := rfl

theorem analyzeUrgency_priority_eq (content subject : String) :
    (analyzeUrgency content subject).suggestedPriority
      = (mapPriorityPair (min 100 (max 0 (urgencyScan content subject).score))
          (urgencyScan content subject).reasons).1 := rfl

theorem mapPriorityPair_cases (score : Int) (rs : List String) (h : ¬ score < 0) :
    (mapPriorityPair score rs).1 = 1 ∨ (mapPriorityPair score rs).1 = 2 ∨
      (mapPriorityPair score rs).1 = 3 := by
  unfold mapPriorityPair
  split_ifs <;> simp_all

/-- C1 (code bug).  On the spec's example input the raw pre-clamp score is
negative (−5), yet `analyzeUrgency` returns `suggestedPriority` 3, not 4: the
clamp to `[0, 100]` (line 190) runs before the `score < 0` test (line 204), so
the `4` branch — whose own comment reads "Low if negative indicators" — is
unreachable, and for every input the suggested priority is 1, 2 or 3. -/
theorem analyzeUrgency_negative_preclamp_yields_normal :
    (urgencyScan "When you have time, no rush, nice to have"
        "Low priority idea").score = -5 ∧
    (analyzeUrgency "When you have time, no rush, nice to have"
        "Low priority idea").score = 0 ∧
    (analyzeUrgency "When you have time, no rush, nice to have"
        "Low priority idea").suggestedPriority = 3 ∧
    (∀ content subject : String,
      (analyzeUrgency content subject).suggestedPriority = 1 ∨
      (analyzeUrgency content subject).suggestedPriority = 2 ∨
      (analyzeUrgency content subject).suggestedPriority = 3) := by
  refine ⟨by decide, by decide, by decide, fun content subject => ?_⟩
  rw [analyzeUrgency_priority_eq]
  exact mapPriorityPair_cases _ _ (by omega)

/-- C6.  `analyzeUrgency` always returns a score in `[0, 100]`, and the
saturating input containing "URGENT", "ASAP", "HELP!!!" and "security breach"
simultaneously scores exactly 100 with suggested priority 1 (raw pre-clamp
score 200). -/
theorem analyzeUrgency_score_clamped_and_saturates :
    (∀ content subject : String,
      0 ≤ (analyzeUrgency content subject).score ∧
      (analyzeUrgency content subject).score ≤ 100) ∧
    (analyzeUrgency "URGENT ASAP HELP!!! security breach" "").score = 100 ∧
    (analyzeUrgency "URGENT ASAP HELP!!! security breach" "").suggestedPriority
      = 1 := by
  refine ⟨fun content subject => ?_, by decide, by decide⟩
  rw [analyzeUrgency_score_eq]
  omega

/-! ## A list-of-successes matcher for the JavaScript regexes

A matcher consumes characters from a list and returns every possible
`(result, rest)` pair, ordered by the backtracking priority of the JavaScript
regex engine: a greedy quantifier yields longest-first, a lazy quantifier
shortest-first, an alternation left-to-right.  `firstHit` tries each start
position from the left and takes the engine's first parse, i.e. the leftmost
match. -/

def M (σ : Type) : Type := List Char → List (σ × List Char)

def mPure {σ : Type} (a : σ) : M σ := fun l => [(a, l)]

def mBind {α β : Type} (p : M α) (f : α → M β) : M β :=
  fun l => (p l).flatMap fun ar => f ar.1 ar.2

instance : Monad M where
  pure := mPure
  bind := mBind

/-- Case-sensitive literal. -/
def mLit (s : String) : M Unit := fun l =>
  if startsWithCh s.data l then [((), l.drop s.data.length)] else []

/-- Case-insensitive literal (the pattern is given lower-cased). -/
def mLitCI (s : String) : M Unit := fun l =>
  if startsWithCh s.data ((l.take s.data.length).map latinLower) then
    [((), l.drop s.data.length)]
  else []

/-- A single literal character. -/
def mCh (c : Char) : M Unit := fun l =>
  match l with
  | x :: t => if x == c then [((), t)] else []
  | [] => []

/-- `[class]+`, greedy: candidate consumptions are the nonempty takes of the
maximal run, longest first. -/
def mClassPlus (p : Char → Bool) : M (List Char) := fun l =>
  let run := l.takeWhile p
  (List.range run.length).map
    (fun i => (run.take (run.length - i), l.drop (run.length - i)))

/-- `[class]*`, greedy: like `mClassPlus` but also the empty consumption. -/
def mClassStar (p : Char → Bool) : M (List Char) := fun l =>
  let run := l.takeWhile p
  (List.range (run.length + 1)).map
    (fun i => (run.take (run.length - i), l.drop (run.length - i)))

/-- `[^]*?`, lazy over any character: shortest consumption first. -/
def mLazyAnyStar : M (List Char) := fun l =>
  (List.range (l.length + 1)).map (fun i => (l.take i, l.drop i))

/-- `(...)?`, greedy optional: with the group first, then without. -/
def mOpt {α : Type} (p : M α) : M (Option α) := fun l =>
  ((p l).map fun ar => (some ar.1, ar.2)) ++ [(none, l)]

/-- Ordered alternation. -/
def mOr {α : Type} (p q : M α) : M α := fun l => p l ++ q l

/-- Leftmost match: try every start position from the left, take the engine's
first parse there (so `(firstHit m l).isSome` models `re.test`/`match`). -/
def firstHit {α : Type} (m : M α) : List Char → Option α
  | [] => ((m []).head?).map (fun ar => ar.1)
  | c :: t =>
    match (m (c :: t)).head? with
    | some ar => some ar.1
    | none => firstHit m t

/-- All matches of a global regex: scan from the left, restarting after each
match (advancing one position on a match that consumed nothing, like the
`lastIndex` bump of the JavaScript engine).  The fuel argument is the initial
length of the list, which every step strictly decreases. -/
def scanAllF {α : Type} (m : M α) : Nat → List Char → List α
  | 0, _ => []
  | _ + 1, [] => []
  | fuel + 1, c :: t =>
    match (m (c :: t)).head? with
    | some ar =>
        ar.1 :: scanAllF m fuel (if ar.2.length < t.length + 1 then ar.2 else t)
    | none => scanAllF m fuel t

/-- All matches of a global regex, leftmost, non-overlapping. -/
def scanAll {α : Type} (m : M α) (l : List Char) : List α := scanAllF m l.length l

/-! ## Thread tracker (`threadTracker` module of `src/src/contentRefiner.ts`)

The two module-level `Map`s (`ticketCache`, `messageIdIndex`) are modelled as
association lists in insertion order: `Map.set` on a present key updates the
entry in place, otherwise appends; `Map.delete` removes; iteration and
`Map.values()` follow insertion order.  `new Date()` / `Date.now()` is an
explicit `Int` millisecond timestamp argument. -/

/-- `TicketRecord` of `contentRefiner.ts`. -/
structure TicketRecord where
  issueId : String
  issueIdentifier : String
  senderEmail : String
  senderDomain : String
  subject : String
  normalizedSubject : String
  messageId : Option String
  createdAt : Int
deriving Repr, DecidableEq

/-- The module-level mutable state: `ticketCache` and `messageIdIndex`. -/
structure TrackerState where
  ticketCache : List (String × TicketRecord)
  messageIdIndex : List (String × String)
deriving Repr, DecidableEq

/-- The initial (empty) module state. -/
def emptyTracker : TrackerState := ⟨[], []⟩

/-- `Map.get`: the value of the (unique) entry with the given key. -/
def mapGet {β : Type} : List (String × β) → String → Option β
  | [], _ => none
  | p :: t, k => if p.1 = k then some p.2 else mapGet t k

/-- `Map.set`: update in place if the key is present, else append. -/
def mapSet {β : Type} (m : List (String × β)) (k : String) (v : β) :
    List (String × β) :=
  if (mapGet m k).isSome then m.map (fun p => if p.1 = k then (k, v) else p)
  else m ++ [(k, v)]

/-- `Map.delete`. -/
def mapDelete {β : Type} (m : List (String × β)) (k : String) :
    List (String × β) :=
  m.filter (fun p => decide (p.1 ≠ k))

/-- `Map.values()`, in insertion order. -/
def mapValues {β : Type} (m : List (String × β)) : List β := m.map (fun p => p.2)

/-- Delete a list of keys in order. -/
def deleteMany {β : Type} (m : List (String × β)) (ks : List String) :
    List (String × β) :=
  ks.foldl mapDelete m

/-- Length consumed by the reply/forward marker alternation
`(Re|Fwd?|FW|Fw|AW|SV|VS|Antw|Rif):` of `normalizeSubject` at the start of the
(lower-cased) subject; 0 when none matches.  Because the pattern is anchored
with `^` (and `lastIndex` can never return to 0), the `g` flag notwithstanding
only one leading marker is ever removed. -/
def replyMarkerLen (low : List Char) : Nat :=
  if startsWithCh "re:".data low then 3
  else if startsWithCh "fwd:".data low then 4
  else if startsWithCh "fw:".data low then 3
  else if startsWithCh "aw:".data low then 3
  else if startsWithCh "sv:".data low then 3
  else if startsWithCh "vs:".data low then 3
  else if startsWithCh "antw:".data low then 5
  else if startsWithCh "rif:".data low then 4
  else 0

/-- Collapse each run of consecutive spaces to a single space. -/
def squeezeSpaces : List Char → List Char
  | [] => []
  | [a] => [a]
  | a :: b :: t =>
    if a == ' ' && b == ' ' then squeezeSpaces (b :: t)
    else a :: squeezeSpaces (b :: t)

/-- `.replace(/\s+/g, ' ')`: every maximal whitespace run becomes one space. -/
def collapseWs (l : List Char) : List Char :=
  squeezeSpaces (l.map (fun c => if isWs c then ' ' else c))

/-- `normalizeSubject` of `contentRefiner.ts`: strip one leading
reply/forward marker (with its trailing whitespace), collapse whitespace,
trim, lower-case. -/
def normalizeSubject (subject : String) : String :=
  let l := subject.data
  let n := replyMarkerLen (l.map latinLower)
  let l := if n = 0 then l else (l.drop n).dropWhile isWs
  ⟨(trimWs (collapseWs l)).map latinLower⟩

/-- `senderEmail.split('@')[1]?.toLowerCase() || ''`: the (lower-cased)
segment between the first and second `@`, or `""` when there is no `@`. -/
def domainAfterAt (email : String) : String :=
  if hasSub ['@'] email.data then
    ⟨(((email.data.dropWhile (fun c => c != '@')).drop 1).takeWhile
        (fun c => c != '@')).map latinLower⟩
  else ""

/-- `/In-Reply-To:\s*<([^>]+)>/i`. -/
def pInReplyTo : M (List Char) := do
  mLitCI "in-reply-to:"
  _ ← mClassStar isWs
  mCh '<'
  let cap ← mClassPlus (fun c => c != '>')
  mCh '>'
  pure cap

/-- `extractInReplyTo` of `contentRefiner.ts`. -/
def extractInReplyTo (content : String) : Option String :=
  (firstHit pInReplyTo content.data).map (fun l => ⟨l⟩)

/-- `/References:\s*([^\n]+)/i` (first capture). -/
def pRefsLine : M (List Char) := do
  mLitCI "references:"
  _ ← mClassStar isWs
  mClassPlus (fun c => c != '\n')

/-- `/<([^>]+)>/g` (one capture). -/
def pAngleIdTok : M (List Char) := do
  mCh '<'
  let cap ← mClassPlus (fun c => c != '>')
  mCh '>'
  pure cap

/-- `extractReferences` of `contentRefiner.ts`: the angle-bracketed tokens of
the `References:` header value, each with `<`/`>` characters removed. -/
def extractReferences (content : String) : List String :=
  match firstHit pRefsLine content.data with
  | none => []
  | some line =>
    (scanAll pAngleIdTok line).map
      (fun cap => ⟨cap.filter (fun c => !(c == '<' || c == '>'))⟩)

/-- `RelatedTicket` of `contentRefiner.ts` (`matchType` and `confidence` are
string-literal unions in the source). -/
structure RelatedTicket where
  issueId : String
  issueIdentifier : String
  matchType : String
  confidence : String
  reason : String
deriving Repr, DecidableEq

/-- `CACHE_TTL_DAYS` of `contentRefiner.ts`. -/
def CACHE_TTL_DAYS : Int := 7

/-- `cleanupCache` of `contentRefiner.ts`: remove every cached record older
than the retention window together with the reverse index entry of its
`messageId` (a full sweep of the cache). -/
def cleanupCache (st : TrackerState) (now : Int) : TrackerState :=
  let cutoff := now - CACHE_TTL_DAYS * 24 * 60 * 60 * 1000
  let expired := st.ticketCache.filter (fun p => decide (p.2.createdAt < cutoff))
  { ticketCache := st.ticketCache.filter (fun p => decide (¬ p.2.createdAt < cutoff)),
    messageIdIndex :=
      deleteMany st.messageIdIndex (expired.filterMap (fun p => p.2.messageId)) }

/-- `recordTicket` of `contentRefiner.ts`: build the record (sender
lower-cased, domain derived, subject normalized, `createdAt := now`), store it
by issue id, index the message id when present, then run the cleanup sweep. -/
def recordTicket (st : TrackerState)
    (issueId issueIdentifier senderEmail subject : String)
    (messageId : Option String) (now : Int) : TrackerState :=
  let record : TicketRecord :=
    ⟨issueId, issueIdentifier, lowerStr senderEmail, domainAfterAt senderEmail,
     subject, normalizeSubject subject, messageId, now⟩
  let st1 : TrackerState := ⟨mapSet st.ticketCache issueId record, st.messageIdIndex⟩
  let st2 : TrackerState :=
    match messageId with
    | some m => ⟨st1.ticketCache, mapSet st1.messageIdIndex m issueId⟩
    | none => st1
  cleanupCache st2 now

/-- Tier 1 of `findRelatedTickets`: thread references.  `allRefs` is
`In-Reply-To` (when present) followed by the `References` ids; each id found
in the reverse index whose issue is still cached contributes a high-confidence
`thread` match. -/
def tierThread (st : TrackerState) (content : String) : List RelatedTicket :=
  let inReplyTo := extractInReplyTo content
  let references := extractReferences content
  let allRefs := match inReplyTo with
    | some r => r :: references
    | none => references
  allRefs.foldl (fun acc ref =>
    match mapGet st.messageIdIndex ref with
    | some issueId =>
      match mapGet st.ticketCache issueId with
      | some record =>
        acc ++ [⟨record.issueId, record.issueIdentifier, "thread", "high",
                 "Reply to " ++ record.issueIdentifier ++ " (same email thread)"⟩]
      | none => acc
    | none => acc) []

/-- Tier 2 of `findRelatedTickets`: same normalized subject and same sender
domain, scanning the whole cache in insertion order. -/
def tierSubject (st : TrackerState) (normalizedSubject senderDomain : String) :
    List RelatedTicket :=
  st.ticketCache.foldl (fun acc p =>
    if p.2.normalizedSubject = normalizedSubject ∧ p.2.senderDomain = senderDomain then
      acc ++ [⟨p.2.issueId, p.2.issueIdentifier, "subject", "high",
              "Same subject from " ++ senderDomain⟩]
    else acc) []

/-- Tier 3 of `findRelatedTickets`: exact same (lower-cased) sender address
and one normalized subject a substring of the other. -/
def tierSender (st : TrackerState) (senderLower normalizedSubject : String) :
    List RelatedTicket :=
  st.ticketCache.foldl (fun acc p =>
    if p.2.senderEmail = senderLower ∧
        (hasSub p.2.normalizedSubject.data normalizedSubject.data ∨
         hasSub normalizedSubject.data p.2.normalizedSubject.data) then
      acc ++ [⟨p.2.issueId, p.2.issueIdentifier, "sender", "medium",
              "Similar subject from same sender"⟩]
    else acc) []

/-- Tier 4 of `findRelatedTickets`: recency fallback.  `Map.values()` in
insertion order, filtered to the same sender, filtered to
`(now - createdAt) / 3 600 000 < 24` (i.e. `now - createdAt < 86 400 000` ms),
then `slice(0, 3)`. -/
def tierRecency (st : TrackerState) (senderLower : String) (now : Int) :
    List RelatedTicket :=
  let recentFromSender :=
    (((mapValues st.ticketCache).filter
        (fun r => decide (r.senderEmail = senderLower))).filter
      (fun r => decide (now - r.createdAt < 86400000))).take 3
  recentFromSender.map (fun r =>
    ⟨r.issueId, r.issueIdentifier, "sender", "low",
     "Recent ticket from same sender"⟩)

/-- `findRelatedTickets` of `contentRefiner.ts`: the four matching tiers, each
of tiers 2–4 guarded by `related.length === 0`. -/
def findRelatedTickets (st : TrackerState)
    (senderEmail subject content : String) (now : Int) : List RelatedTicket :=
  let normalizedSubject := normalizeSubject subject
  let senderDomain := domainAfterAt senderEmail
  let related := tierThread st content
  let related := if related.isEmpty then
      tierSubject st normalizedSubject senderDomain else related
  let related := if related.isEmpty then
      tierSender st (lowerStr senderEmail) normalizedSubject else related
  let related := if related.isEmpty then
      tierRecency st (lowerStr senderEmail) now else related
  related

/-- `findRelatedTickets` as a state transformer: the source function only
reads the two module maps and never writes them, so its effect on the module
state is the identity. -/
def findRelatedOp (st : TrackerState) (senderEmail subject content : String)
    (now : Int) : TrackerState × List RelatedTicket :=
  (st, findRelatedTickets st senderEmail subject content now)

/-- Four tickets from the same sender, recorded in chronological order one
hour apart (so `createdAt` increases with insertion order); all four are less
than 24 hours old at query time `c2qTime`. -/
def c2State : TrackerState :=
  recordTicket
    (recordTicket
      (recordTicket
        (recordTicket emptyTracker "T1" "WEA-1" "a@x.com" "aaa one" none 0)
        "T2" "WEA-2" "a@x.com" "aaa two" none 3600000)
      "T3" "WEA-3" "a@x.com" "aaa three" none 7200000)
    "T4" "WEA-4" "a@x.com" "aaa four" none 10800000

/-- Query time for the recency-fallback scenario: 4 h after the first record. -/
def c2qTime : Int := 14400000

theorem findRelated_eq_tier1 (st : TrackerState)
    (senderEmail subject content : String) (now : Int)
    (h : tierThread st content ≠ []) :
    findRelatedTickets st senderEmail subject content now = tierThread st content := by
  simp [findRelatedTickets, List.isEmpty_iff, h]

theorem findRelated_eq_tier2 (st : TrackerState)
    (senderEmail subject content : String) (now : Int)
    (h1 : tierThread st content = [])
    (h : tierSubject st (normalizeSubject subject) (domainAfterAt senderEmail) ≠ []) :
    findRelatedTickets st senderEmail subject content now
      = tierSubject st (normalizeSubject subject) (domainAfterAt senderEmail) := by
  simp [findRelatedTickets, List.isEmpty_iff, h1, h]

theorem findRelated_eq_tier3 (st : TrackerState)
    (senderEmail subject content : String) (now : Int)
    (h1 : tierThread st content = [])
    (h2 : tierSubject st (normalizeSubject subject) (domainAfterAt senderEmail) = [])
    (h : tierSender st (lowerStr senderEmail) (normalizeSubject subject) ≠ []) :
    findRelatedTickets st senderEmail subject content now
      = tierSender st (lowerStr senderEmail) (normalizeSubject subject) := by
  simp [findRelatedTickets, List.isEmpty_iff, h1, h2, h]

theorem findRelated_eq_tier4 (st : TrackerState)
    (senderEmail subject content : String) (now : Int)
    (h1 : tierThread st content = [])
    (h2 : tierSubject st (normalizeSubject subject) (domainAfterAt senderEmail) = [])
    (h3 : tierSender st (lowerStr senderEmail) (normalizeSubject subject) = []) :
    findRelatedTickets st senderEmail subject content now
      = tierRecency st (lowerStr senderEmail) now := by
  simp [findRelatedTickets, List.isEmpty_iff, h1, h2, h3]

theorem tierThread_singleton (st : TrackerState) (content : String)
    (ref issueId : String) (rec : TicketRecord)
    (h1 : extractInReplyTo content = some ref)
    (h2 : extractReferences content = [])
    (h3 : mapGet st.messageIdIndex ref = some issueId)
    (h4 : mapGet st.ticketCache issueId = some rec) :
    tierThread st content
      = [⟨rec.issueId, rec.issueIdentifier, "thread", "high",
          "Reply to " ++ rec.issueIdentifier ++ " (same email thread)"⟩] := by
  simp only [tierThread, h1, h2, h3, h4, List.foldl_cons, List.foldl_nil,
    List.nil_append]

/-- C4.  `findRelatedTickets` evaluates its four tiers in order and returns
the result of the first tier that yields any match, never merging tiers; and
after recording a ticket with `messageId = "abc"`, a lookup whose content
contains `In-Reply-To: <abc>` returns exactly one match, of type `thread`
with confidence `high`. -/
theorem findRelatedTickets_first_nonempty_tier_wins :
    (∀ (st : TrackerState) (senderEmail subject content : String) (now : Int),
      (tierThread st content ≠ [] →
        findRelatedTickets st senderEmail subject content now
          = tierThread st content) ∧
      (tierThread st content = [] →
        tierSubject st (normalizeSubject subject) (domainAfterAt senderEmail) ≠ [] →
        findRelatedTickets st senderEmail subject content now
          = tierSubject st (normalizeSubject subject) (domainAfterAt senderEmail)) ∧
      (tierThread st content = [] →
        tierSubject st (normalizeSubject subject) (domainAfterAt senderEmail) = [] →
        tierSender st (lowerStr senderEmail) (normalizeSubject subject) ≠ [] →
        findRelatedTickets st senderEmail subject content now
          = tierSender st (lowerStr senderEmail) (normalizeSubject subject)) ∧
      (tierThread st content = [] →
        tierSubject st (normalizeSubject subject) (domainAfterAt senderEmail) = [] →
        tierSender st (lowerStr senderEmail) (normalizeSubject subject) = [] →
        findRelatedTickets st senderEmail subject content now
          = tierRecency st (lowerStr senderEmail) now)) ∧
    findRelatedTickets
        (recordTicket emptyTracker "A" "WEA-1" "client@acme.com" "Help"
          (some "abc") 0)
        "client@acme.com" "Re: other" "In-Reply-To: <abc>" 0
      = [⟨"A", "WEA-1", "thread", "high", "Reply to WEA-1 (same email thread)"⟩] := by
  refine ⟨fun st senderEmail subject content now =>
    ⟨findRelated_eq_tier1 st senderEmail subject content now,
     findRelated_eq_tier2 st senderEmail subject content now,
     findRelated_eq_tier3 st senderEmail subject content now,
     findRelated_eq_tier4 st senderEmail subject content now⟩, by decide⟩

/-- Witness for C4: the universal tier-selection part applied to the concrete
recorded state, with the nonemptiness of the thread tier discharged by
evaluation. -/
theorem findRelatedTickets_first_nonempty_tier_wins_witness :
    findRelatedTickets
        (recordTicket emptyTracker "A" "WEA-1" "client@acme.com" "Help"
          (some "abc") 0)
        "client@acme.com" "Re: other" "In-Reply-To: <abc>" 0
      = tierThread
          (recordTicket emptyTracker "A" "WEA-1" "client@acme.com" "Help"
            (some "abc") 0)
          "In-Reply-To: <abc>" :=
  (findRelatedTickets_first_nonempty_tier_wins.1
    (recordTicket emptyTracker "A" "WEA-1" "client@acme.com" "Help"
      (some "abc") 0)
    "client@acme.com" "Re: other" "In-Reply-To: <abc>" 0).1 (by decide)

/-- Counterexample to C2 as stated.  In `c2State` all four records come from
the same sender and all are within the last 24 hours at query time, with
`createdAt` strictly increasing in insertion order — yet the recency fallback
returns `T1, T2, T3`, the three *earliest* records in index order, and omits
`T4`, the most recent eligible record: the source slices the first three
values of the insertion-ordered cache without sorting by recency. -/
theorem tierRecency_not_most_recent_counterexample :
    (findRelatedTickets c2State "a@x.com" "zzz" "" c2qTime).map
        (fun r => r.issueId) = ["T1", "T2", "T3"] ∧
    (mapValues c2State.ticketCache).map (fun r => r.issueId)
      = ["T1", "T2", "T3", "T4"] ∧
    (mapValues c2State.ticketCache).map (fun r => r.createdAt)
      = [0, 3600000, 7200000, 10800000] ∧
    (mapValues c2State.ticketCache).map (fun r => r.senderEmail)
      = ["a@x.com", "a@x.com", "a@x.com", "a@x.com"] ∧
    (mapValues c2State.ticketCache).map
        (fun r => decide (c2qTime - r.createdAt < 86400000))
      = [true, true, true, true] := by
  refine ⟨by decide, by decide, by decide, by decide, by decide⟩

/-- C2 (amended).  When tiers 1–3 all yield nothing, `findRelatedTickets`
returns the recency fallback: the up-to-3 *first* (insertion-ordered, i.e.
earliest-recorded, not most-recent) cached records from the exact same
(lower-cased) sender address whose `createdAt` lies within the last 24 hours,
each with confidence `low` and reason "Recent ticket from same sender";
records 24 hours old or older, or from other senders, are never returned by
this tier, and at most 3 results are produced. -/
theorem findRelatedTickets_recency_fallback (st : TrackerState)
    (senderEmail subject content : String) (now : Int)
    (h1 : tierThread st content = [])
    (h2 : tierSubject st (normalizeSubject subject) (domainAfterAt senderEmail) = [])
    (h3 : tierSender st (lowerStr senderEmail) (normalizeSubject subject) = []) :
    findRelatedTickets st senderEmail subject content now
      = ((((mapValues st.ticketCache).filter
            (fun r => decide (r.senderEmail = lowerStr senderEmail))).filter
          (fun r => decide (now - r.createdAt < 86400000))).take 3).map
        (fun r => ⟨r.issueId, r.issueIdentifier, "sender", "low",
                   "Recent ticket from same sender"⟩) ∧
    (findRelatedTickets st senderEmail subject content now).length ≤ 3 ∧
    (∀ r ∈ findRelatedTickets st senderEmail subject content now,
      r.matchType = "sender" ∧ r.confidence = "low" ∧
      r.reason = "Recent ticket from same sender" ∧
      ∃ rec ∈ mapValues st.ticketCache,
        rec.senderEmail = lowerStr senderEmail ∧
        now - rec.createdAt < 86400000 ∧
        r.issueId = rec.issueId ∧ r.issueIdentifier = rec.issueIdentifier) := by
  have he : findRelatedTickets st senderEmail subject content now
      = tierRecency st (lowerStr senderEmail) now :=
    findRelated_eq_tier4 st senderEmail subject content now h1 h2 h3
  refine ⟨he, ?_, ?_⟩
  · rw [he]
    simp only [tierRecency, List.length_map, List.length_take]
    omega
  · intro r hr
    rw [he] at hr
    simp only [tierRecency, List.mem_map] at hr
    obtain ⟨rec, hrec, rfl⟩ := hr
    have hrec' := List.mem_of_mem_take hrec
    have h24 := (List.mem_filter.mp hrec').2
    have hsend := (List.mem_filter.mp (List.mem_filter.mp hrec').1).2
    have hmem := (List.mem_filter.mp (List.mem_filter.mp hrec').1).1
    refine ⟨rfl, rfl, rfl, rec, hmem, of_decide_eq_true hsend,
      of_decide_eq_true h24, rfl, rfl⟩

/-- Witness for C2 (amended): the fallback theorem applied to `c2State`, with
the emptiness of tiers 1–3 discharged by evaluation. -/
theorem findRelatedTickets_recency_fallback_witness :
    findRelatedTickets c2State "a@x.com" "zzz" "" c2qTime
      = ((((mapValues c2State.ticketCache).filter
            (fun r => decide (r.senderEmail = lowerStr "a@x.com"))).filter
          (fun r => decide (c2qTime - r.createdAt < 86400000))).take 3).map
        (fun r => ⟨r.issueId, r.issueIdentifier, "sender", "low",
                   "Recent ticket from same sender"⟩) :=
  (findRelatedTickets_recency_fallback c2State "a@x.com" "zzz" "" c2qTime
    (by decide) (by decide) (by decide)).1

/-- C10.  `findRelatedTickets` never modifies the conversation index (its
state-transformer form returns the state unchanged), and a cached record —
of *any* age, in particular one older than the 7-day retention window — whose
`messageId` is referenced by the content's `In-Reply-To` header is still
returned as a thread-tier match: eviction happens only inside `recordTicket`. -/
theorem findRelatedTickets_pure_and_stale_discoverable :
    (∀ (st : TrackerState) (senderEmail subject content : String) (now : Int),
      (findRelatedOp st senderEmail subject content now).1 = st) ∧
    (∀ (st : TrackerState) (senderEmail subject content : String) (now : Int)
        (ref issueId : String) (rec : TicketRecord),
      extractInReplyTo content = some ref →
      extractReferences content = [] →
      mapGet st.messageIdIndex ref = some issueId →
      mapGet st.ticketCache issueId = some rec →
      findRelatedTickets st senderEmail subject content now
        = [⟨rec.issueId, rec.issueIdentifier, "thread", "high",
            "Reply to " ++ rec.issueIdentifier ++ " (same email thread)"⟩]) := by
  refine ⟨fun _ _ _ _ _ => rfl,
    fun st senderEmail subject content now ref issueId rec hr hrefs hidx hcache => ?_⟩
  have ht := tierThread_singleton st content ref issueId rec hr hrefs hidx hcache
  rw [findRelated_eq_tier1 st senderEmail subject content now (by rw [ht]; simp), ht]

/-- Witness for C10: a record created at time 0 is queried 8 days later
(691 200 000 ms > the 7-day window) and is still found by the thread tier,
while the state is left unchanged. -/
theorem findRelatedTickets_pure_and_stale_discoverable_witness :
    (findRelatedOp
        (recordTicket emptyTracker "A" "WEA-1" "client@acme.com" "Help"
          (some "m") 0)
        "x@y.com" "other" "In-Reply-To: <m>" 691200000).1
      = recordTicket emptyTracker "A" "WEA-1" "client@acme.com" "Help"
          (some "m") 0 ∧
    findRelatedTickets
        (recordTicket emptyTracker "A" "WEA-1" "client@acme.com" "Help"
          (some "m") 0)
        "x@y.com" "other" "In-Reply-To: <m>" 691200000
      = [⟨"A", "WEA-1", "thread", "high", "Reply to WEA-1 (same email thread)"⟩] :=
  ⟨findRelatedTickets_pure_and_stale_discoverable.1 _ "x@y.com" "other"
      "In-Reply-To: <m>" 691200000,
   findRelatedTickets_pure_and_stale_discoverable.2
      (recordTicket emptyTracker "A" "WEA-1" "client@acme.com" "Help"
        (some "m") 0)
      "x@y.com" "other" "In-Reply-To: <m>" 691200000 "m" "A"
      ⟨"A", "WEA-1", "client@acme.com", "acme.com", "Help", "help", some "m", 0⟩
      (by decide) (by decide) (by decide) (by decide)⟩

/-! ## Association-list lemmas for the two tracker maps -/

theorem mapGet_isSome_of_mem {β : Type} {m : List (String × β)} {p : String × β}
    (h : p ∈ m) : (mapGet m p.1).isSome := by
  induction m with
  | nil => simp at h
  | cons q t ih =>
    rw [mapGet]
    rcases List.mem_cons.mp h with rfl | hm
    · simp
    · by_cases hq : q.1 = p.1
      · simp [hq]
      · simpa [hq] using ih hm

theorem mapGet_eq_some_mem {β : Type} :
    ∀ {m : List (String × β)} {k : String} {v : β},
      mapGet m k = some v → (k, v) ∈ m := by
  intro m
  induction m with
  | nil => intro k v h; simp [mapGet] at h
  | cons p t ih =>
    intro k v h
    obtain ⟨a, b⟩ := p
    rw [mapGet] at h
    by_cases ha : a = k
    · subst ha
      rw [if_pos rfl] at h
      obtain rfl : b = v := Option.some.inj h
      exact List.mem_cons_self _ _
    · rw [if_neg (by simpa using ha)] at h
      exact List.mem_cons_of_mem _ (ih h)

theorem mem_mapSet {β : Type} {m : List (String × β)} {k : String} {v : β}
    {p : String × β} (h : p ∈ mapSet m k v) :
    p = (k, v) ∨ (p ∈ m ∧ p.1 ≠ k) := by
  unfold mapSet at h
  split at h
  · obtain ⟨q, hq, hEq⟩ := List.mem_map.mp h
    by_cases hk : q.1 = k
    · rw [if_pos hk] at hEq
      exact Or.inl hEq.symm
    · rw [if_neg hk] at hEq
      exact Or.inr ⟨hEq ▸ hq, hEq ▸ hk⟩
  · next hnone =>
    rcases List.mem_append.mp h with hm | hm
    · refine Or.inr ⟨hm, fun hk => hnone ?_⟩
      simpa [hk] using mapGet_isSome_of_mem hm
    · exact Or.inl (by simpa using hm)

theorem mapGet_mapSet_self {β : Type} (m : List (String × β)) (k : String) (v : β) :
    mapGet (mapSet m k v) k = some v := by
  unfold mapSet
  split
  · next hsome =>
    induction m with
    | nil => simp [mapGet] at hsome
    | cons p t ih =>
      obtain ⟨a, b⟩ := p
      by_cases ha : a = k
      · simp only [List.map_cons, if_pos ha]
        rw [mapGet, if_pos rfl]
      · rw [mapGet, if_neg ha] at hsome
        simp only [List.map_cons, if_neg ha]
        rw [mapGet, if_neg ha]
        exact ih hsome
  · next hnone =>
    induction m with
    | nil => rw [List.nil_append, mapGet, if_pos rfl]
    | cons p t ih =>
      obtain ⟨a, b⟩ := p
      rw [mapGet] at hnone
      rw [List.cons_append, mapGet]
      by_cases ha : a = k
      · rw [if_pos ha] at hnone; simp at hnone
      · rw [if_neg ha] at hnone ⊢
        exact ih hnone

theorem mapGet_mapSet_ne {β : Type} (m : List (String × β)) (k k' : String) (v : β)
    (h : k' ≠ k) : mapGet (mapSet m k v) k' = mapGet m k' := by
  unfold mapSet
  split
  · next hsome =>
    clear hsome
    induction m with
    | nil => simp [mapGet]
    | cons p t ih =>
      obtain ⟨a, b⟩ := p
      by_cases ha : a = k
      · subst ha
        simp only [List.map_cons, if_pos rfl]
        rw [mapGet, mapGet, if_neg (fun hk => h hk.symm), if_neg (fun hk => h hk.symm)]
        exact ih
      · simp only [List.map_cons, if_neg ha]
        rw [mapGet, mapGet]
        by_cases ha' : a = k'
        · rw [if_pos ha', if_pos ha']
        · rw [if_neg ha', if_neg ha']
          exact ih
  · next hnone =>
    clear hnone
    induction m with
    | nil => simp [mapGet, Ne.symm h]
    | cons p t ih =>
      obtain ⟨a, b⟩ := p
      rw [List.cons_append, mapGet, mapGet]
      by_cases ha' : a = k'
      · rw [if_pos ha', if_pos ha']
      · rw [if_neg ha', if_neg ha']
        exact ih

theorem mapGet_mapDelete_ne {β : Type} (m : List (String × β)) (k k' : String)
    (h : k ≠ k') : mapGet (mapDelete m k') k = mapGet m k := by
  induction m with
  | nil => rfl
  | cons p t ih =>
    obtain ⟨a, b⟩ := p
    unfold mapDelete at ih ⊢
    rw [List.filter_cons]
    by_cases ha : a = k'
    · rw [if_neg (by simp [ha])]
      rw [mapGet, if_neg (fun hh : a = k => h (hh ▸ ha))]
      exact ih
    · rw [if_pos (by simpa using ha)]
      rw [mapGet, mapGet]
      by_cases hak : a = k
      · rw [if_pos hak, if_pos hak]
      · rw [if_neg hak, if_neg hak]
        exact ih

theorem mem_mapDelete {β : Type} {m : List (String × β)} {k : String}
    {p : String × β} (h : p ∈ mapDelete m k) : p ∈ m :=
  List.mem_of_mem_filter h

theorem mapGet_deleteMany_notin {β : Type} :
    ∀ (ks : List String) (m : List (String × β)) (k : String),
      k ∉ ks → mapGet (deleteMany m ks) k = mapGet m k := by
  intro ks
  induction ks with
  | nil => intro m k _; rfl
  | cons a t ih =>
    intro m k hk
    have h1 : k ∉ t := fun h => hk (List.mem_cons_of_mem _ h)
    have h2 : a ≠ k := fun h => hk (h ▸ List.mem_cons_self _ _)
    unfold deleteMany at ih ⊢
    rw [List.foldl_cons, ih (mapDelete m a) k h1,
      mapGet_mapDelete_ne m k a (fun hh => h2 hh.symm)]

theorem mem_deleteMany {β : Type} :
    ∀ (ks : List String) (m : List (String × β)) (p : String × β),
      p ∈ deleteMany m ks → p ∈ m := by
  intro ks
  induction ks with
  | nil => intro m p h; exact h
  | cons a t ih =>
    intro m p h
    unfold deleteMany at ih h
    rw [List.foldl_cons] at h
    exact mem_mapDelete (ih (mapDelete m a) p h)

theorem keys_nodup_mapSet {β : Type} {m : List (String × β)} (k : String) (v : β)
    (h : (m.map (fun p => p.1)).Nodup) :
    ((mapSet m k v).map (fun p => p.1)).Nodup := by
  unfold mapSet
  split
  · have hkeys : (List.map (fun p => if p.1 = k then (k, v) else p) m).map
        (fun p => p.1) = m.map (fun p => p.1) := by
      rw [List.map_map]
      apply List.map_congr_left
      intro p _
      by_cases hp : p.1 = k <;> simp [hp]
    rw [hkeys]
    exact h
  · next hnone =>
    rw [List.map_append]
    simp only [List.map_cons, List.map_nil]
    rw [List.nodup_append]
    refine ⟨h, List.nodup_singleton _, ?_⟩
    intro a ha hb
    simp only [List.mem_singleton] at hb
    subst hb
    obtain ⟨p, hp, hpa⟩ := List.mem_map.mp ha
    exact hnone (by simpa [hpa] using mapGet_isSome_of_mem hp)

theorem eq_of_mem_keys_nodup {β : Type} {m : List (String × β)} {k : String}
    {a b : β} (h : (m.map (fun p => p.1)).Nodup)
    (ha : (k, a) ∈ m) (hb : (k, b) ∈ m) : a = b := by
  induction m with
  | nil => simp at ha
  | cons q t ih =>
    rw [List.map_cons, List.nodup_cons] at h
    rcases List.mem_cons.mp ha with rfl | ha' <;>
      rcases List.mem_cons.mp hb with hq | hb'
    · exact congrArg Prod.snd hq.symm
    · exact absurd (List.mem_map.mpr ⟨_, hb', rfl⟩) h.1
    · exact absurd (List.mem_map.mpr ⟨_, ha', rfl⟩) (hq ▸ h.1)
    · exact ih h.2 ha' hb'

/-! ## The conversation-index invariant (C3) -/

/-- Claimed invariant: every cached record carrying a `messageId` has a
reverse-lookup entry mapping that `messageId` to the record's item id. -/
def msgInv (st : TrackerState) : Prop :=
  ∀ p ∈ st.ticketCache, ∀ m, p.2.messageId = some m →
    mapGet st.messageIdIndex m = some p.1

/-- Every cache entry is stored under its own `issueId`. -/
def cacheKeyed (st : TrackerState) : Prop :=
  ∀ p ∈ st.ticketCache, p.2.issueId = p.1

/-- Auxiliary induction invariant: all information in the two maps is
accounted for by the pair list `S` of `(messageId, issueId)` recordings. -/
def trackedBy (S : List (String × String)) (st : TrackerState) : Prop :=
  (st.ticketCache.map (fun p => p.1)).Nodup ∧
  cacheKeyed st ∧
  (∀ p ∈ st.ticketCache, ∀ m, p.2.messageId = some m → (m, p.1) ∈ S) ∧
  (∀ q ∈ st.messageIdIndex, q ∈ S) ∧
  msgInv st

/-- The recorded `(messageId, issueId)` pairs are functional: one message id
is never recorded for two different item ids. -/
def funPairs (S : List (String × String)) : Prop :=
  ∀ p ∈ S, ∀ q ∈ S, p.1 = q.1 → p.2 = q.2

theorem funPairs_mono {S T : List (String × String)} (hST : ∀ q ∈ S, q ∈ T)
    (h : funPairs T) : funPairs S :=
  fun p hp q hq => h p (hST p hp) q (hST q hq)

/-- The reverse index after the conditional `messageIdIndex.set` step of
`recordTicket`. -/
def idxAfterSet (idx : List (String × String)) (issueId : String)
    (mId : Option String) : List (String × String) :=
  match mId with
  | some m => mapSet idx m issueId
  | none => idx

theorem recordTicket_eq (st : TrackerState)
    (issueId issueIdentifier senderEmail subject : String)
    (mId : Option String) (now : Int) :
    recordTicket st issueId issueIdentifier senderEmail subject mId now
      = cleanupCache
          ⟨mapSet st.ticketCache issueId
              ⟨issueId, issueIdentifier, lowerStr senderEmail,
               domainAfterAt senderEmail, subject, normalizeSubject subject,
               mId, now⟩,
            idxAfterSet st.messageIdIndex issueId mId⟩ now := by
  cases mId <;> rfl

theorem cleanupCache_ticketCache (st : TrackerState) (now : Int) :
    (cleanupCache st now).ticketCache
      = st.ticketCache.filter
          (fun p => decide
            (¬ p.2.createdAt < now - CACHE_TTL_DAYS * 24 * 60 * 60 * 1000)) := rfl

theorem cleanupCache_messageIdIndex (st : TrackerState) (now : Int) :
    (cleanupCache st now).messageIdIndex
      = deleteMany st.messageIdIndex
          ((st.ticketCache.filter
            (fun p => decide
              (p.2.createdAt < now - CACHE_TTL_DAYS * 24 * 60 * 60 * 1000))).filterMap
            (fun p => p.2.messageId)) := rfl

/-- The cleanup sweep preserves the tracking invariant: it can only delete the
reverse entry of a message id whose (unique, by `funPairs`) owner record is
being evicted in the same sweep. -/
theorem trackedBy_cleanupCache {S' : List (String × String)} {st : TrackerState}
    (now : Int) (hFP : funPairs S') (hT : trackedBy S' st) :
    trackedBy S' (cleanupCache st now) := by
  obtain ⟨hNd, hKey, hTrk, hIdxS, hInv⟩ := hT
  refine ⟨?_, ?_, ?_, ?_, ?_⟩
  · rw [cleanupCache_ticketCache]
    exact hNd.sublist ((List.filter_sublist _).map _)
  · intro p hp
    rw [cleanupCache_ticketCache] at hp
    exact hKey p (List.mem_of_mem_filter hp)
  · intro p hp m hm
    rw [cleanupCache_ticketCache] at hp
    exact hTrk p (List.mem_of_mem_filter hp) m hm
  · intro q hq
    rw [cleanupCache_messageIdIndex] at hq
    exact hIdxS q (mem_deleteMany _ _ _ hq)
  · intro p hp mm hmm
    rw [cleanupCache_messageIdIndex]
    rw [cleanupCache_ticketCache] at hp
    have hpmem := List.mem_of_mem_filter hp
    have hfresh : ¬ p.2.createdAt < now - CACHE_TTL_DAYS * 24 * 60 * 60 * 1000 :=
      of_decide_eq_true (List.mem_filter.mp hp).2
    have hnotms : mm ∉ (st.ticketCache.filter
        (fun q => decide
          (q.2.createdAt < now - CACHE_TTL_DAYS * 24 * 60 * 60 * 1000))).filterMap
        (fun q => q.2.messageId) := by
      intro hin
      obtain ⟨q, hqmem, hqmsg⟩ := List.mem_filterMap.mp hin
      have hqexp : q.2.createdAt < now - CACHE_TTL_DAYS * 24 * 60 * 60 * 1000 :=
        of_decide_eq_true (List.mem_filter.mp hqmem).2
      have hq1 := List.mem_of_mem_filter hqmem
      have h1 := hTrk q hq1 mm hqmsg
      have h2 := hTrk p hpmem mm hmm
      have hk : q.1 = p.1 := hFP _ h1 _ h2 rfl
      have hq' : (p.1, q.2) ∈ st.ticketCache := by
        have hq'' : (q.1, q.2) ∈ st.ticketCache := by simpa using hq1
        rwa [hk] at hq''
      have hp' : (p.1, p.2) ∈ st.ticketCache := by simpa using hpmem
      have hqp : q.2 = p.2 := eq_of_mem_keys_nodup hNd hq' hp'
      rw [hqp] at hqexp
      exact hfresh hqexp
    rw [mapGet_deleteMany_notin _ _ _ hnotms]
    exact hInv p hpmem mm hmm

/-- Storing the new record and (when present) its message-id reverse entry
preserves the tracking invariant, relative to any functional pair list `S'`
that extends `S` with the new recording. -/
theorem trackedBy_setStep {S S' : List (String × String)} {st : TrackerState}
    (issueId issueIdentifier senderEmail subject : String)
    (mId : Option String) (now : Int)
    (hT : trackedBy S st) (hFP : funPairs S')
    (hSS : ∀ q ∈ S, q ∈ S')
    (hM : ∀ mm, mId = some mm → (mm, issueId) ∈ S') :
    trackedBy S'
      ⟨mapSet st.ticketCache issueId
          ⟨issueId, issueIdentifier, lowerStr senderEmail,
           domainAfterAt senderEmail, subject, normalizeSubject subject,
           mId, now⟩,
        idxAfterSet st.messageIdIndex issueId mId⟩ := by
  obtain ⟨hNd, hKey, hTrk, hIdxS, hInv⟩ := hT
  refine ⟨keys_nodup_mapSet _ _ hNd, ?_, ?_, ?_, ?_⟩
  · intro p hp
    rcases mem_mapSet hp with rfl | ⟨hold, _⟩
    · rfl
    · exact hKey p hold
  · intro p hp m hm
    rcases mem_mapSet hp with rfl | ⟨hold, _⟩
    · exact hM m hm
    · exact hSS _ (hTrk p hold m hm)
  · intro q hq
    cases mId with
    | none => exact hSS _ (hIdxS q hq)
    | some m0 =>
      simp only [idxAfterSet] at hq
      rcases mem_mapSet hq with rfl | ⟨hold, _⟩
      · exact hM m0 rfl
      · exact hSS _ (hIdxS q hold)
  · intro p hp mm hmm
    rcases mem_mapSet hp with rfl | ⟨hold, hne⟩
    · simp only at hmm
      subst hmm
      simp only [idxAfterSet, mapGet_mapSet_self]
    · have hgetold : mapGet st.messageIdIndex mm = some p.1 := hInv p hold mm hmm
      cases mId with
      | none => exact hgetold
      | some m0 =>
        have hne0 : mm ≠ m0 := by
          intro hEq
          subst hEq
          have h1 : (mm, issueId) ∈ S' := hM mm rfl
          have h2 : (mm, p.1) ∈ S' := hSS _ (hTrk p hold mm hmm)
          exact hne (hFP _ h2 _ h1 rfl)
        simp only [idxAfterSet]
        rw [mapGet_mapSet_ne _ _ _ _ hne0]
        exact hgetold

theorem trackedBy_recordTicket {S S' : List (String × String)} {st : TrackerState}
    (issueId issueIdentifier senderEmail subject : String)
    (mId : Option String) (now : Int)
    (hT : trackedBy S st) (hFP : funPairs S')
    (hSS : ∀ q ∈ S, q ∈ S')
    (hM : ∀ mm, mId = some mm → (mm, issueId) ∈ S') :
    trackedBy S'
      (recordTicket st issueId issueIdentifier senderEmail subject mId now) := by
  rw [recordTicket_eq]
  exact trackedBy_cleanupCache now hFP
    (trackedBy_setStep issueId issueIdentifier senderEmail subject mId now
      hT hFP hSS hM)

/-- The call trace of the conversation linker: `recordTicket` and
`findRelatedTickets` invocations with explicit timestamps. -/
inductive TrackerOp where
  | doRecord : String → String → String → String → Option String → Int → TrackerOp
  | doFind : String → String → String → Int → TrackerOp

/-- Effect of one call on the module state (`findRelatedTickets` reads only). -/
def applyOp (st : TrackerState) : TrackerOp → TrackerState
  | TrackerOp.doRecord i d s subj m now => recordTicket st i d s subj m now
  | TrackerOp.doFind s subj c now => (findRelatedOp st s subj c now).1

/-- Run a call trace from a state. -/
def runOps : TrackerState → List TrackerOp → TrackerState
  | st, [] => st
  | st, op :: ops => runOps (applyOp st op) ops

/-- The `(messageId, issueId)` pairs recorded by a call trace. -/
def opPairs (ops : List TrackerOp) : List (String × String) :=
  ops.flatMap fun op =>
    match op with
    | TrackerOp.doRecord i _ _ _ (some m) _ => [(m, i)]
    | _ => []

theorem trackedBy_runOps :
    ∀ (ops : List TrackerOp) (S : List (String × String)) (st : TrackerState),
      funPairs (S ++ opPairs ops) → trackedBy S st →
      trackedBy (S ++ opPairs ops) (runOps st ops) := by
  intro ops
  induction ops with
  | nil =>
    intro S st _ hT
    simpa [opPairs] using hT
  | cons op rest ih =>
    intro S st hFP hT
    cases op with
    | doFind s subj c now =>
      have hEq : opPairs (TrackerOp.doFind s subj c now :: rest) = opPairs rest := by
        simp [opPairs]
      rw [hEq] at hFP ⊢
      exact ih S st hFP hT
    | doRecord i d s subj mId now =>
      cases mId with
      | none =>
        have hEq : opPairs (TrackerOp.doRecord i d s subj none now :: rest)
            = opPairs rest := by simp [opPairs]
        rw [hEq] at hFP ⊢
        have hstep : trackedBy S (recordTicket st i d s subj none now) :=
          trackedBy_recordTicket i d s subj none now hT
            (funPairs_mono (fun q hq => List.mem_append_left _ hq) hFP)
            (fun q hq => hq) (fun mm hmm => Option.noConfusion hmm)
        exact ih S (recordTicket st i d s subj none now) hFP hstep
      | some m =>
        have hEq : opPairs (TrackerOp.doRecord i d s subj (some m) now :: rest)
            = (m, i) :: opPairs rest := by simp [opPairs]
        rw [hEq] at hFP ⊢
        have hassoc : S ++ (m, i) :: opPairs rest
            = (S ++ [(m, i)]) ++ opPairs rest := by
          rw [List.append_assoc]; rfl
        rw [hassoc] at hFP ⊢
        have hFP1 : funPairs (S ++ [(m, i)]) :=
          funPairs_mono (fun q hq => List.mem_append_left _ hq) hFP
        have hstep : trackedBy (S ++ [(m, i)])
            (recordTicket st i d s subj (some m) now) :=
          trackedBy_recordTicket i d s subj (some m) now hT hFP1
            (fun q hq => List.mem_append_left _ hq)
            (fun mm hmm => by
              obtain rfl : m = mm := Option.some.inj hmm
              exact List.mem_append_right _ (List.mem_singleton_self _))
        exact ih (S ++ [(m, i)]) (recordTicket st i d s subj (some m) now)
          hFP hstep

theorem trackedBy_empty : trackedBy [] emptyTracker := by
  refine ⟨?_, ?_, ?_, ?_, ?_⟩ <;> simp [emptyTracker, cacheKeyed, msgInv]

/-- Recording two different item ids with the same `messageId "m"`. -/
def c3DupState : TrackerState :=
  recordTicket
    (recordTicket emptyTracker "A" "A-1" "a@x.com" "s one" (some "m") 0)
    "B" "B-1" "b@y.com" "s two" (some "m") 0

/-- Counterexample to C3 as stated.  After recording item "A" and then item
"B" with the same `messageId "m"`, record "A" is still cached and still
carries `messageId "m"`, but the reverse-lookup entry for `"m"` now maps to
`"B"`, not to "A"'s item id: the claimed invariant fails.  (Eviction is also
unsound here: when "A" expires, the sweep would delete the entry `"m" → "B"`
that belongs to the still-live "B".) -/
theorem conversationIndex_invariant_counterexample :
    mapGet c3DupState.ticketCache "A"
      = some ⟨"A", "A-1", "a@x.com", "x.com", "s one", "s one", some "m", 0⟩ ∧
    mapGet c3DupState.messageIdIndex "m" = some "B" ∧
    (msgInv c3DupState → False) := by
  refine ⟨by decide, by decide, fun h => ?_⟩
  have hA := h ("A", ⟨"A", "A-1", "a@x.com", "x.com", "s one", "s one",
      some "m", 0⟩) (by decide) "m" rfl
  rw [show mapGet c3DupState.messageIdIndex "m" = some "B" from by decide] at hA
  exact absurd (Option.some.inj hA) (by decide)

/-- C3 (amended).  Provided no `messageId` is ever recorded for two different
item ids (`funPairs` over the trace), the invariant holds after every call
trace from the empty state: each cached record carrying a `messageId` has a
reverse-lookup entry mapping it to the record's item id, and records are
keyed by their own item id.  Unconditionally, every `recordTicket` call sweeps
the whole cache, so immediately after it no cached entry is older than the
7-day retention window — a backdated over-age record is gone, and since every
tier (in particular the thread tier) emits only cached records, its
`messageId` can no longer yield a thread-tier match. -/
theorem conversationIndex_invariant_and_sweep :
    (∀ ops : List TrackerOp, funPairs (opPairs ops) →
      msgInv (runOps emptyTracker ops) ∧ cacheKeyed (runOps emptyTracker ops)) ∧
    (∀ (st : TrackerState)
        (issueId issueIdentifier senderEmail subject : String)
        (mId : Option String) (now : Int),
      ∀ p ∈ (recordTicket st issueId issueIdentifier senderEmail subject mId
          now).ticketCache,
        ¬ p.2.createdAt < now - CACHE_TTL_DAYS * 24 * 60 * 60 * 1000) := by
  constructor
  · intro ops hFP
    have h := trackedBy_runOps ops [] emptyTracker (by simpa using hFP)
      trackedBy_empty
    exact ⟨h.2.2.2.2, h.2.1⟩
  · intro st issueId issueIdentifier senderEmail subject mId now p hp
    rw [recordTicket_eq, cleanupCache_ticketCache] at hp
    exact of_decide_eq_true (List.mem_filter.mp hp).2

/-- Witness for C3 (amended): a three-call trace with distinct message ids
satisfies the functionality precondition, and a record call at day 8 sweeps a
record backdated to time 0. -/
theorem conversationIndex_invariant_and_sweep_witness :
    (msgInv (runOps emptyTracker
        [TrackerOp.doRecord "A" "A-1" "a@x.com" "s one" (some "m1") 0,
         TrackerOp.doRecord "B" "B-1" "b@y.com" "s two" (some "m2") 3600000,
         TrackerOp.doFind "a@x.com" "s one" "" 7200000]) ∧
      cacheKeyed (runOps emptyTracker
        [TrackerOp.doRecord "A" "A-1" "a@x.com" "s one" (some "m1") 0,
         TrackerOp.doRecord "B" "B-1" "b@y.com" "s two" (some "m2") 3600000,
         TrackerOp.doFind "a@x.com" "s one" "" 7200000])) ∧
    (∀ p ∈ (recordTicket
        (recordTicket emptyTracker "A" "A-1" "a@x.com" "s one" (some "m1") 0)
        "B" "B-1" "b@y.com" "s two" (some "m2") 691200000).ticketCache,
      ¬ p.2.createdAt < 691200000 - CACHE_TTL_DAYS * 24 * 60 * 60 * 1000) :=
  ⟨conversationIndex_invariant_and_sweep.1 _ (by unfold funPairs; decide),
   conversationIndex_invariant_and_sweep.2 _ "B" "B-1" "b@y.com" "s two"
     (some "m2") 691200000⟩

/-! ## Email routing (`src/src/emailRouting.ts`) -/

/-- `INTERNAL_DOMAIN` of `emailRouting.ts`. -/
def INTERNAL_DOMAIN : String := "weapply.se"

/-- The JavaScript class `[\w.-]` (`\w` = `[A-Za-z0-9_]`). -/
def wdot (c : Char) : Bool := c.isAlphanum || c == '_' || c == '.' || c == '-'

/-- The JavaScript class `\w`. -/
def wch (c : Char) : Bool := c.isAlphanum || c == '_'

/-- `.replace(/[)\]>]+$/, '')`: strip the maximal trailing run of `)`, `]`,
`>`. -/
def stripTrailPunct (l : List Char) : List Char :=
  (l.reverse.dropWhile (fun c => c == ')' || c == ']' || c == '>')).reverse

/-- `extractDomain` of `emailRouting.ts`: empty unless the address contains
`@`; else the lower-cased segment after the first `@` (JavaScript
`split('@')[1]`), with trailing bracket characters stripped and trimmed. -/
def extractDomain (email : String) : String :=
  if email.data.isEmpty || !(hasSub ['@'] email.data) then ""
  else
    ⟨trimWs (stripTrailPunct
      ((((email.data.dropWhile (fun c => c != '@')).drop 1).takeWhile
          (fun c => c != '@')).map latinLower))⟩

/-- `/mailto:([^)\s]+)/g` (case-sensitive; capture 1). -/
def pMailtoG : M (List Char) := do
  mLit "mailto:"
  mClassPlus (fun c => !(c == ')' || isWs c))

/-- `/[\w.-]+@[\w.-]+\.\w+/g` (whole match). -/
def pEmailToken : M (List Char) := do
  let a ← mClassPlus wdot
  mCh '@'
  let b ← mClassPlus wdot
  mCh '.'
  let d ← mClassPlus wch
  pure (a ++ '@' :: (b ++ '.' :: d))

/-- `/From:\s*\[([^\]]+)\]\(mailto:([^)]+)\)/i` (capture 2). -/
def pFromMailto : M (List Char) := do
  mLitCI "from:"
  _ ← mClassStar isWs
  mCh '['
  _ ← mClassPlus (fun c => c != ']')
  mCh ']'
  mCh '('
  mLitCI "mailto:"
  let cap ← mClassPlus (fun c => c != ')')
  mCh ')'
  pure cap

/-- `/From:\s*(?:"?([^"<\n]+)"?\s*)?<?([^>\s\n@]+@[^>\s\n)]+)>?/i`
(captures 1 and 2; `\n ∈ \s`, so the classes reduce as written). -/
def pFromPlain : M (Option (List Char) × List Char) := do
  mLitCI "from:"
  _ ← mClassStar isWs
  let nm ← mOpt (do
    _ ← mOpt (mCh '"')
    let n ← mClassPlus (fun c => !(c == '"' || c == '<' || c == '\n'))
    _ ← mOpt (mCh '"')
    _ ← mClassStar isWs
    pure n)
  _ ← mOpt (mCh '<')
  let e1 ← mClassPlus (fun c => !(c == '>' || isWs c || c == '@'))
  mCh '@'
  let e2 ← mClassPlus (fun c => !(c == '>' || isWs c || c == ')'))
  _ ← mOpt (mCh '>')
  pure (nm, e1 ++ '@' :: e2)

/-- `/From:.*\nSent:.*\nTo:/i` (the bare From/Sent/To triple marker). -/
def pFwdTriple : M Unit := do
  mLitCI "from:"
  _ ← mClassStar (fun c => c != '\n')
  mCh '\n'
  mLitCI "sent:"
  _ ← mClassStar (fun c => c != '\n')
  mCh '\n'
  mLitCI "to:"

/-- `/(?:Forwarded message|forwarded message|Original Message)[^]*?From:\s*\[([^\]]+)\]\(mailto:([^)]+)\)/i`
(capture 2; the first two alternatives coincide under `/i`). -/
def pOrigMarkdown : M (List Char) := do
  mOr (mLitCI "forwarded message")
    (mOr (mLitCI "forwarded message") (mLitCI "original message"))
  _ ← mLazyAnyStar
  mLitCI "from:"
  _ ← mClassStar isWs
  mCh '['
  _ ← mClassPlus (fun c => c != ']')
  mCh ']'
  mCh '('
  mLitCI "mailto:"
  let cap ← mClassPlus (fun c => c != ')')
  mCh ')'
  pure cap

/-- `/(?:Forwarded message|forwarded message|Original Message)[^]*?From:\s*(?:"?[^"<\n]*"?\s*)?<?([^>\s\n@]+@[^>\s\n)]+)>?/i`
(capture 1). -/
def pOrigPlain : M (List Char) := do
  mOr (mLitCI "forwarded message")
    (mOr (mLitCI "forwarded message") (mLitCI "original message"))
  _ ← mLazyAnyStar
  mLitCI "from:"
  _ ← mClassStar isWs
  _ ← mOpt (do
    _ ← mOpt (mCh '"')
    _ ← mClassStar (fun c => !(c == '"' || c == '<' || c == '\n'))
    _ ← mOpt (mCh '"')
    _ ← mClassStar isWs
    pure ())
  _ ← mOpt (mCh '<')
  let e1 ← mClassPlus (fun c => !(c == '>' || isWs c || c == '@'))
  mCh '@'
  let e2 ← mClassPlus (fun c => !(c == '>' || isWs c || c == ')'))
  _ ← mOpt (mCh '>')
  pure (e1 ++ '@' :: e2)

/-- Case-insensitive substring test (the pattern is given lower-cased). -/
def containsCI (pat : String) (l : List Char) : Bool :=
  hasSub pat.data (l.map latinLower)

/-- `new Set(...)` iteration: first occurrences, in insertion order
(structural fuel = length of the list). -/
def dedupFirstF : Nat → List (List Char) → List (List Char)
  | 0, _ => []
  | _ + 1, [] => []
  | fuel + 1, x :: xs =>
    x :: dedupFirstF fuel (xs.filter (fun y => decide (y ≠ x)))

/-- Deduplicate keeping first occurrences. -/
def dedupFirst (l : List (List Char)) : List (List Char) := dedupFirstF l.length l

/-- `allEmails` of `extractEmailMetadata`: mailto-captured addresses followed
by bare email tokens, deduplicated in `Set` order, then filtered to drop
`linear.app` addresses and keep only tokens containing `@`. -/
def allEmailsOf (cl : List Char) : List (List Char) :=
  (dedupFirst (scanAll pMailtoG cl ++ scanAll pEmailToken cl)).filter
    (fun e => !(hasSub "linear.app".data e) && hasSub ['@'] e)

/-- The `From:` parse of `extractEmailMetadata`: the markdown `mailto` form
takes precedence (its captured address cleaned of trailing bracket characters
and trimmed, display name empty); else the plain `From:` line form.  Returns
`(display name, address)`.  (The source also computes an unused `toMatch`
binding, omitted here.) -/
def fromMatchOf (cl : List Char) : Option (List Char × List Char) :=
  match firstHit pFromMailto cl with
  | some cap => some ([], trimWs (stripTrailPunct cap))
  | none =>
    match firstHit pFromPlain cl with
    | some nmem => some (nmem.1.getD [], nmem.2)
    | none => none

/-- `hasForwardedHeader` of `extractEmailMetadata`: the four body markers. -/
def hasForwardedHeader (cl : List Char) : Bool :=
  containsCI "---------- forwarded message" cl ||
  containsCI "begin forwarded message" cl ||
  containsCI "----- original message -----" cl ||
  (firstHit pFwdTriple cl).isSome

/-- JavaScript `a || b` for an optional string (`undefined` and `""` are
falsy). -/
def jsOrStr (a : Option String) (b : String) : String :=
  match a with
  | some d => if d.data.isEmpty then b else d
  | none => b

/-- The final guard of `extractEmailMetadata`: a derived client domain equal
to the internal domain is discarded. -/
def clientDomainGuard (cd : Option String) : Option String :=
  if cd = some INTERNAL_DOMAIN then none else cd

/-- `EmailMetadata` of `emailRouting.ts` (`none` models an absent / `undefined`
optional field). -/
structure EmailMetadata where
  senderEmail : String
  senderName : Option String
  senderDomain : String
  isForwarded : Bool
  forwarderEmail : Option String
  forwarderDomain : Option String
  originalSenderEmail : Option String
  originalSenderDomain : Option String
  isInternal : Bool
  isInternalForward : Bool
  isExternalDirect : Bool
  assignToEmail : Option String
  clientDomain : Option String
deriving Repr, DecidableEq

/-- `extractEmailMetadata` of `emailRouting.ts`. -/
def extractEmailMetadata (content title : String) : EmailMetadata :=
  let cl := content.data
  let isForwardedFromTitle :=
    startsWithCh "fwd:".data (title.data.map latinLower) ||
    startsWithCh "fw:".data (title.data.map latinLower)
  let allEmails := allEmailsOf cl
  let fromM := fromMatchOf cl
  let senderName : List Char :=
    match fromM with
    | some nmem => trimWs nmem.1
    | none => []
  let senderEmail : List Char :=
    match fromM with
    | some nmem => (trimWs nmem.2).map latinLower
    | none =>
      match allEmails with
      | e :: _ => e.map latinLower
      | [] => []
  let senderEmailS : String := ⟨senderEmail⟩
  let senderDomain := extractDomain senderEmailS
  let isForwarded := isForwardedFromTitle || hasForwardedHeader cl
  let forwarderEmail : Option String :=
    if isForwarded then some senderEmailS else none
  let forwarderDomain : Option String :=
    if isForwarded then some senderDomain else none
  let originalSenderEmail : Option String :=
    if isForwarded then
      match firstHit pOrigMarkdown cl with
      | some cap => some ⟨(trimWs (stripTrailPunct cap)).map latinLower⟩
      | none =>
        match firstHit pOrigPlain cl with
        | some em => some ⟨(trimWs (stripTrailPunct em)).map latinLower⟩
        | none =>
          let otherEmails := allEmails.filter (fun e =>
            let ce := (stripTrailPunct e).map latinLower
            decide (ce ≠ senderEmail) &&
            !(hasSub "pm@weapply.se".data ce) &&
            !(hasSub "linear.app".data ce))
          match otherEmails with
          | e :: _ => some ⟨(stripTrailPunct e).map latinLower⟩
          | [] => none
    else none
  let originalSenderDomain : Option String := originalSenderEmail.map extractDomain
  let isInternal : Bool := senderDomain == INTERNAL_DOMAIN
  let isInternalForward : Bool :=
    isForwarded && (forwarderDomain == some INTERNAL_DOMAIN)
  let isExternalDirect : Bool :=
    !isForwarded && !(senderDomain == INTERNAL_DOMAIN)
  let ac : Option String × Option String :=
    if isInternal && !isForwarded then (some senderEmailS, none)
    else if isInternalForward then
      (forwarderEmail, some (jsOrStr originalSenderDomain senderDomain))
    else if isExternalDirect then (none, some senderDomain)
    else if isForwarded && !(forwarderDomain == some INTERNAL_DOMAIN) then
      (none, some (jsOrStr originalSenderDomain senderDomain))
    else (none, none)
  let clientDomain : Option String := clientDomainGuard ac.2
  { senderEmail := senderEmailS,
    senderName := if senderName.isEmpty then none else some ⟨senderName⟩,
    senderDomain := senderDomain,
    isForwarded := isForwarded,
    forwarderEmail := forwarderEmail,
    forwarderDomain := forwarderDomain,
    originalSenderEmail := originalSenderEmail,
    originalSenderDomain := originalSenderDomain,
    isInternal := isInternal,
    isInternalForward := isInternalForward,
    isExternalDirect := isExternalDirect,
    assignToEmail := ac.1,
    clientDomain := clientDomain }

def c5content : String :=
  "From: [Pelle Nyman](mailto:pelle@weapply.se)\n\n---------- Forwarded message ---------\nFrom: [Client](mailto:client@acme.com)\n\nHi"

def c5title : String := "Fwd: Request"

/-- C5.  On content whose top-level linked sender is `pelle@weapply.se` and
whose body contains a forwarded-message marker followed by a nested linked
sender `client@acme.com`, with subject prefixed "Fwd:", the extractor reports
a forward by `pelle@weapply.se` of `client@acme.com` with client domain
`acme.com`; and universally, whenever `isForwarded` holds the forwarder is
exactly the top-level sender. -/
theorem extractEmailMetadata_forwarded_example :
    (extractEmailMetadata c5content c5title).isForwarded = true ∧
    (extractEmailMetadata c5content c5title).forwarderEmail
      = some "pelle@weapply.se" ∧
    (extractEmailMetadata c5content c5title).originalSenderEmail
      = some "client@acme.com" ∧
    (extractEmailMetadata c5content c5title).isInternalForward = true ∧
    (extractEmailMetadata c5content c5title).clientDomain = some "acme.com" ∧
    (∀ content title : String,
      (extractEmailMetadata content title).isForwarded = true →
      (extractEmailMetadata content title).forwarderEmail
        = some (extractEmailMetadata content title).senderEmail) := by
  refine ⟨by decide, by decide, by decide, by decide, by decide,
    fun content title h => ?_⟩
  simp only [extractEmailMetadata] at h ⊢
  rw [if_pos h]

/-- Witness for C5: the universal forwarder-equals-sender conjunct applied to
the concrete forwarded content, its hypothesis discharged by evaluation. -/
theorem extractEmailMetadata_forwarded_example_witness :
    (extractEmailMetadata c5content c5title).forwarderEmail
      = some (extractEmailMetadata c5content c5title).senderEmail :=
  extractEmailMetadata_forwarded_example.2.2.2.2.2 c5content c5title (by decide)

/-- C8.  `extractEmailMetadata` is a total function (it is defined for all
inputs); whenever the content has no `From:` line in linked or plain form and
no surviving email-like token, the result carries empty `senderEmail` and
`senderDomain` — in particular on empty content and subject. -/
theorem extractEmailMetadata_empty_sender :
    (∀ content title : String,
      fromMatchOf content.data = none →
      allEmailsOf content.data = [] →
      (extractEmailMetadata content title).senderEmail = "" ∧
      (extractEmailMetadata content title).senderDomain = "") ∧
    (extractEmailMetadata "" "").senderEmail = "" ∧
    (extractEmailMetadata "" "").senderDomain = "" := by
  refine ⟨fun content title h1 h2 => ?_, by decide, by decide⟩
  constructor
  · simp only [extractEmailMetadata, h1, h2]
  · simp only [extractEmailMetadata, h1, h2]
    decide

/-- Witness for C8: the empty content has no `From:` match and no email-like
token, and indeed yields empty sender fields. -/
theorem extractEmailMetadata_empty_sender_witness :
    (extractEmailMetadata "" "").senderEmail = "" ∧
    (extractEmailMetadata "" "").senderDomain = "" :=
  extractEmailMetadata_empty_sender.1 "" "" (by decide) (by decide)

/-- C9.  For every content and title, the returned `clientDomain` is never
the internal domain: the final guard of `extractEmailMetadata` discards a
derived client domain equal to `"weapply.se"`. -/
theorem clientDomainGuard_ne_internal (cd : Option String) :
    clientDomainGuard cd ≠ some "weapply.se" := by
  unfold clientDomainGuard
  split
  · simp
  · next hn => exact fun h => hn h

theorem extractEmailMetadata_clientDomain_never_internal :
    ∀ content title : String,
      (extractEmailMetadata content title).clientDomain ≠ some "weapply.se" := by
  intro content title
  simp only [extractEmailMetadata]
  exact clientDomainGuard_ne_internal _

/-- Witness for C9: the guard applied at a concrete input whose derived
client domain would otherwise be the internal domain (an internal forward
with an internal original sender). -/
theorem extractEmailMetadata_clientDomain_never_internal_witness :
    (extractEmailMetadata
        "From: [P](mailto:pelle@weapply.se)\n\n---------- Forwarded message ---------\nFrom: [Q](mailto:q@weapply.se)\n\nHi"
        "Fwd: x").clientDomain ≠ some "weapply.se" :=
  extractEmailMetadata_clientDomain_never_internal _ "Fwd: x"

/-! ## Routing resolver (`getTargetProjectId`) -/

/-- Modelled from the spec: the destination collection identifiers
(`PROJECT_IDS` with the `MAIL_INBOX`, `CLIENTS` and `EXTERNAL` destinations)
are absent from `src/src/emailRouting.ts`; only the tests and the webhook
callers import them.  The id strings follow the repository documentation's
configuration listing. -/
structure ProjectIds where
  MAIL_INBOX : String
  CLIENTS : String
  EXTERNAL : String
deriving Repr, DecidableEq

def PROJECT_IDS : ProjectIds :=
  ⟨"1f70f9a4-c945-402f-a0a5-77f0f207f1ea",
   "5186127d-5e90-4d63-8b20-bc522c2e4a5d",
   "977387e2-8409-4a2d-9661-9fe98bbd0870"⟩

/-- Modelled from the spec: `getTargetProjectId` is missing from
`src/src/emailRouting.ts` — only `src/tests/emailRouting.test.ts` and the
webhook handlers reference it.  Spec §4.4 (Routing Resolver): decision table,
first match wins — internal-and-not-forwarded → inbox destination;
internal-forward → clients destination when a client label was assigned, else
external/unknown; external-direct → clients when a client label was assigned,
else external/unknown; default fallback → inbox destination. -/
def getTargetProjectId (metadata : EmailMetadata) (hasClientLabel : Bool) :
    String :=
  if metadata.isInternal && !metadata.isForwarded then PROJECT_IDS.MAIL_INBOX
  else if metadata.isInternalForward then
    (if hasClientLabel then PROJECT_IDS.CLIENTS else PROJECT_IDS.EXTERNAL)
  else if metadata.isExternalDirect then
    (if hasClientLabel then PROJECT_IDS.CLIENTS else PROJECT_IDS.EXTERNAL)
  else PROJECT_IDS.MAIL_INBOX

/-- An `EmailMetadata` carrying only the four routing flags (the test file
constructs such partial objects). -/
def mkRoutingMeta (isInternal isForwarded isInternalForward isExternalDirect :
    Bool) : EmailMetadata :=
  ⟨"", none, "", isForwarded, none, none, none, none, isInternal,
   isInternalForward, isExternalDirect, none, none⟩

/-- C7 (spec-modelled).  The routing resolver's decision table, first match
wins: internal and not forwarded → inbox regardless of the label; internal
forward → clients when a client label was assigned, else external/unknown;
external direct → likewise; every remaining case → inbox.  The four concrete
cases are the test vectors of `src/tests/emailRouting.test.ts`. -/
theorem getTargetProjectId_decision_table :
    (∀ (md : EmailMetadata) (hasClientLabel : Bool),
      (md.isInternal = true → md.isForwarded = false →
        getTargetProjectId md hasClientLabel = PROJECT_IDS.MAIL_INBOX) ∧
      (¬(md.isInternal = true ∧ md.isForwarded = false) →
        md.isInternalForward = true →
        getTargetProjectId md hasClientLabel
          = (if hasClientLabel then PROJECT_IDS.CLIENTS
             else PROJECT_IDS.EXTERNAL)) ∧
      (¬(md.isInternal = true ∧ md.isForwarded = false) →
        md.isInternalForward = false → md.isExternalDirect = true →
        getTargetProjectId md hasClientLabel
          = (if hasClientLabel then PROJECT_IDS.CLIENTS
             else PROJECT_IDS.EXTERNAL)) ∧
      (¬(md.isInternal = true ∧ md.isForwarded = false) →
        md.isInternalForward = false → md.isExternalDirect = false →
        getTargetProjectId md hasClientLabel = PROJECT_IDS.MAIL_INBOX)) ∧
    getTargetProjectId (mkRoutingMeta true false false false) false
      = PROJECT_IDS.MAIL_INBOX ∧
    getTargetProjectId (mkRoutingMeta false true true false) true
      = PROJECT_IDS.CLIENTS ∧
    getTargetProjectId (mkRoutingMeta false false false true) true
      = PROJECT_IDS.CLIENTS ∧
    getTargetProjectId (mkRoutingMeta false false false true) false
      = PROJECT_IDS.EXTERNAL := by
  refine ⟨fun md hasClientLabel => ⟨?_, ?_, ?_, ?_⟩,
    by decide, by decide, by decide, by decide⟩
  · intro h1 h2
    simp [getTargetProjectId, h1, h2]
  · intro h1 h2
    cases hI : md.isInternal <;> cases hF : md.isForwarded <;>
      simp_all [getTargetProjectId]
  · intro h1 h2 h3
    cases hI : md.isInternal <;> cases hF : md.isForwarded <;>
      simp_all [getTargetProjectId]
  · intro h1 h2 h3
    cases hI : md.isInternal <;> cases hF : md.isForwarded <;>
      simp_all [getTargetProjectId]

/-- Witness for C7: the internal-forward row applied to the test file's
metadata vector, hypotheses discharged by evaluation. -/
theorem getTargetProjectId_decision_table_witness :
    getTargetProjectId (mkRoutingMeta false true true false) true
      = (if true then PROJECT_IDS.CLIENTS else PROJECT_IDS.EXTERNAL) :=
  (getTargetProjectId_decision_table.1
    (mkRoutingMeta false true true false) true).2.1 (by decide) (by decide)
